import Mathlib

/-!
Shallow embedding of `rename_fonts.py`: a batch script that renames
Noto Sans CJK font files per style and region and merges the per-region
TTF outputs of a style into one TTC collection.

The script's effects (logging, loading fonts, exporting fonts, deleting
the font object, invoking the external `otf2otc` merging tool) are
modelled as a trace of events.  The external font library (`fontforge`)
is modelled by an oracle `initFont : String → Font` giving the font
object loaded from a path, and the filesystem check `os.path.isfile` by
an oracle `ex : String → Bool`.  A second semantics (`processStyleE`,
`runStylesE`) makes every external library call fallible, to reason
about error propagation: the script contains no try/except, so the
model aborts on the first failing call.
-/

/-- Model of a fontforge font object: exactly the attributes the script
reads or writes.  `sfnt_names` entries are (language, key, value)
triples; `gasp` is a list of gasp-table records. -/
structure Font where
  fontname : String
  fullname : String
  familyname : String
  version : String
  copyright : String
  sfnt_names : List (String × String × String)
  gasp : List (Nat × List String)
deriving DecidableEq

/-- Python's `str.lower()` on the ASCII region codes used here:
lower-case every character. -/
def lowerStr (s : String) : String := String.mk (s.data.map Char.toLower)

/-- Model of `os.path.join(a, b)` for the relative paths used by the
script (no absolute second component, no trailing slashes). -/
def pathJoin (a b : String) : String := a ++ "/" ++ b

def _FONT_COPYRIGHT : String := "© 2014-2021 Adobe (http://www.adobe.com/)."

def _FONT_VERSION : String := "Version 2.004;hotconv 1.0.118;makeotfexe 2.5.65603"

def _FONT_TRADEMARK : String := "Noto is a trademark of Google Inc."

def _FONT_MANUFACTURER : String := "Adobe"

def _FONT_DESIGNER : String := "Ryoko NISHIZUKA 西塚涼子 (kana, bopomofo &amp; ideographs); Paul D. Hunt (Latin, Greek &amp; Cyrillic); Sandoll Communications 산돌커뮤니케이션, Soo-young JANG 장수영 &amp; Joo-yeon KANG 강주연 (hangul elements, letters &amp; syllables)"

def _STYLES : List String := ["Regular", "Thin", "Light", "Medium", "Bold", "Black"]

def _REGIONS : List String := ["JP", "KR", "SC", "TC", "HK"]

def _INPUT_DIR : String := "./input"

def _OUTPUT_DIR : String := "./output"

def _TTF_OUTPUT_DIR : String := pathJoin _OUTPUT_DIR "ttf"

def _TTC_OUTPUT_DIR : String := pathJoin _OUTPUT_DIR "ttc"

/-- Model of `open_font` (line 34): `ff.open(path)` is an external
library call, modelled by the oracle `initFont`. -/
def open_font (initFont : String → Font) (path : String) : Font := initFont path

/-- `remove_gasp` (line 41): `font.gasp = ()`. -/
def remove_gasp (font : Font) : Font := { font with gasp := [] }

/-- `set_font_name` (lines 48-101): rewrites the naming metadata of
`font` for the given region and style. -/
def set_font_name (font : Font) (region style : String) : Font :=
  let region_lc := lowerStr region
  let fontname := "NotoSansCJK" ++ region_lc ++ "-" ++ style
  -- Style is dropped in FullName for Regular.
  let fullname :=
    if style = "Regular" then "Noto Sans CJK " ++ region
    else "Noto Sans CJK " ++ region ++ " " ++ style
  let familyname :=
    if style = "Regular" ∨ style = "Bold" then "Noto Sans CJK " ++ region
    else "Noto Sans CJK " ++ region ++ " " ++ style
  -- For styles other than Regular and Bold, SubFamily is always 'Regular'.
  let font_subfamily :=
    if style = "Regular" ∨ style = "Bold" then style else "Regular"
  let font_preferredfamily : Option String :=
    if style = "Regular" ∨ style = "Bold" then none
    else some ("Noto Sans CJK " ++ region)
  let font_preferredsubfamily : Option String :=
    if style = "Regular" ∨ style = "Bold" then none else some style
  let version := _FONT_VERSION
  let copyright := _FONT_COPYRIGHT
  let font_unique_id := "2.004;GOOG;NotoSansCJK" ++ region_lc ++ "-" ++ style ++ ";ADOBE"
  let font_sfnt_name_list : List (String × String × String) :=
    [("English (US)", "Family", familyname),
     ("English (US)", "Fullname", fullname),
     ("English (US)", "UniqueID", font_unique_id),
     ("English (US)", "SubFamily", font_subfamily),
     ("English (US)", "Version", version),
     ("English (US)", "Copyright", copyright),
     ("English (US)", "Trademark", _FONT_TRADEMARK),
     ("English (US)", "Manufacturer", _FONT_MANUFACTURER),
     ("English (US)", "Designer", _FONT_DESIGNER)]
  let font_sfnt_name_list :=
    match font_preferredfamily, font_preferredsubfamily with
    | some pf, some ps =>
      font_sfnt_name_list ++
        [("English (US)", "Preferred Family", pf),
         ("English (US)", "Preferred Styles", ps)]
    | _, _ => font_sfnt_name_list
  { font with
      fontname := fontname, fullname := fullname, familyname := familyname,
      version := version, copyright := copyright,
      sfnt_names := font_sfnt_name_list }

/-- Argument list built by `make_ttc` (lines 104-114) and handed to the
external `otf2otc` tool: `-o`, the output path, then the TTF paths. -/
def make_ttc_args (ttf_paths : List String) (output_ttc_path : String) : List String :=
  ["-o", output_ttc_path] ++ ttf_paths

/-- Input path of a style (line 123): `./input/<style>.ttf`. -/
def font_path (style : String) : String := pathJoin _INPUT_DIR (style ++ ".ttf")

/-- Per-region output path (lines 138-140):
`./output/ttf/NotoSansCJK<region lowercased>-<style>.ttf`. -/
def output_font_path (style region : String) : String :=
  pathJoin _TTF_OUTPUT_DIR ("NotoSansCJK" ++ lowerStr region ++ "-" ++ style ++ ".ttf")

/-- Collection output path of a style (line 147):
`./output/ttc/NotoSansCJK-<style>.ttc`. -/
def ttc_path (style : String) : String :=
  pathJoin _TTC_OUTPUT_DIR ("NotoSansCJK-" ++ style ++ ".ttc")

/-- Message logged at line 124. -/
def loadMsg (fp : String) : String := "Loading font from: " ++ fp ++ "."

/-- Message logged at lines 126-128 when the input file is missing. -/
def skipMsg (fp style : String) : String :=
  "Cannot find font file " ++ fp ++ ". Skipping style " ++ style ++ "."

/-- Message logged at lines 148-151 before the TTC merge. -/
def ttcMsg (style : String) : String :=
  "Generating ttc file for style " ++ style ++ ". Ttc file will be exported to: " ++
    ttc_path style ++ "."

/-- Observable events of one run of the script. `generate` records the
path and the font state exported to it; `runOtf2otc` records the
argument list passed to the external merging tool. -/
inductive Event where
  | logInfo (msg : String)
  | logError (msg : String)
  | openFont (path : String)
  | removeGasp
  | setName (region style : String)
  | generate (path : String) (font : Font)
  | delFont
  | gcCollect
  | runOtf2otc (args : List String)
deriving DecidableEq

/-- Inner loop of `rename_fonts` (lines 134-142), as state passing:
for each region, `set_font_name` then `font.generate`, accumulating the
paths list `ttf_paths` and the event trace. -/
def regionLoop (style : String) :
    Font → List String → List Event → List String → Font × List String × List Event
  | font, ttf_paths, evs, [] => (font, ttf_paths, evs)
  | font, ttf_paths, evs, region :: rest =>
    let font2 := set_font_name font region style
    let p := output_font_path style region
    regionLoop style font2 (ttf_paths ++ [p])
      (evs ++ [Event.setName region style, Event.generate p font2]) rest

/-- The event trace of the inner loop starting from `font`, written
directly: per region, a `setName` then a `generate` of the mutated
font. -/
def regionTrace (style : String) : Font → List String → List Event
  | _, [] => []
  | font, region :: rest =>
    let font2 := set_font_name font region style
    Event.setName region style ::
      Event.generate (output_font_path style region) font2 ::
        regionTrace style font2 rest

/-- One iteration of the style loop of `rename_fonts` (lines 121-152):
log, check the input file (skip the style when missing), load, clear
gasp, run the region loop, release the font, merge.  `tqdm` only wraps
the iteration and is not modelled. -/
def processStyle (initFont : String → Font) (ex : String → Bool) (style : String) :
    List Event :=
  let fp := font_path style
  if ex fp = false then
    [Event.logInfo (loadMsg fp), Event.logError (skipMsg fp style)]
  else
    let font := remove_gasp (open_font initFont fp)
    let r := regionLoop style font [] [] _REGIONS
    [Event.logInfo (loadMsg fp), Event.openFont fp, Event.removeGasp]
      ++ r.2.2
      ++ [Event.delFont, Event.gcCollect, Event.logInfo (ttcMsg style),
          Event.runOtf2otc (make_ttc_args r.2.1 (ttc_path style))]

/-- The style loop over a list of styles. -/
def runStyles (initFont : String → Font) (ex : String → Bool) : List String → List Event
  | [] => []
  | style :: rest => processStyle initFont ex style ++ runStyles initFont ex rest

/-- `rename_fonts` (lines 117-152): the whole run as an event trace. -/
def rename_fonts (initFont : String → Font) (ex : String → Bool) : List Event :=
  runStyles initFont ex _STYLES

/-- External library calls the script performs; each may fail in the
fallible semantics. -/
inductive LibCall where
  | openFont (path : String)
  | removeGasp
  | setName (region style : String)
  | generate (path : String)
  | otf2otc (args : List String)
deriving DecidableEq

/-- Inner loop with fallible library calls: aborts with the first
failing call.  There is no handler anywhere in the script. -/
def regionLoopE (ok : LibCall → Bool) (style : String) :
    Font → List String → List Event → List String →
      Except LibCall (Font × List String × List Event)
  | font, ttf_paths, evs, [] => Except.ok (font, ttf_paths, evs)
  | font, ttf_paths, evs, region :: rest =>
    if ok (LibCall.setName region style) = false then
      Except.error (LibCall.setName region style)
    else
      let font2 := set_font_name font region style
      let p := output_font_path style region
      if ok (LibCall.generate p) = false then Except.error (LibCall.generate p)
      else
        regionLoopE ok style font2 (ttf_paths ++ [p])
          (evs ++ [Event.setName region style, Event.generate p font2]) rest

/-- One style iteration with fallible library calls.  A missing input
file is not a library failure: it is checked first and handled by
skipping the style. -/
def processStyleE (initFont : String → Font) (ex : String → Bool)
    (ok : LibCall → Bool) (style : String) : Except LibCall (List Event) :=
  let fp := font_path style
  if ex fp = false then
    Except.ok [Event.logInfo (loadMsg fp), Event.logError (skipMsg fp style)]
  else if ok (LibCall.openFont fp) = false then Except.error (LibCall.openFont fp)
  else if ok LibCall.removeGasp = false then Except.error LibCall.removeGasp
  else
    let font := remove_gasp (open_font initFont fp)
    match regionLoopE ok style font [] [] _REGIONS with
    | Except.error c => Except.error c
    | Except.ok r =>
      if ok (LibCall.otf2otc (make_ttc_args r.2.1 (ttc_path style))) = false then
        Except.error (LibCall.otf2otc (make_ttc_args r.2.1 (ttc_path style)))
      else
        Except.ok ([Event.logInfo (loadMsg fp), Event.openFont fp, Event.removeGasp]
          ++ r.2.2
          ++ [Event.delFont, Event.gcCollect, Event.logInfo (ttcMsg style),
              Event.runOtf2otc (make_ttc_args r.2.1 (ttc_path style))])

/-- Style loop with fallible library calls: an error in one style
aborts the whole run (no handler catches it). -/
def runStylesE (initFont : String → Font) (ex : String → Bool)
    (ok : LibCall → Bool) : List String → Except LibCall (List Event)
  | [] => Except.ok []
  | style :: rest =>
    match processStyleE initFont ex ok style with
    | Except.error c => Except.error c
    | Except.ok evs =>
      match runStylesE initFont ex ok rest with
      | Except.error c => Except.error c
      | Except.ok evs2 => Except.ok (evs ++ evs2)

/-- `rename_fonts` in the fallible semantics. -/
def rename_fontsE (initFont : String → Font) (ex : String → Bool)
    (ok : LibCall → Bool) : Except LibCall (List Event) :=
  runStylesE initFont ex ok _STYLES

/-- Whether a fallible run succeeded. -/
def isOkE (r : Except LibCall (List Event)) : Bool :=
  match r with
  | Except.ok _ => true
  | Except.error _ => false

/-- Paths of the `generate` (TTF export) events of a trace. -/
def generatePaths (evs : List Event) : List String :=
  evs.filterMap fun e =>
    match e with
    | Event.generate p _ => some p
    | _ => none

/-- Font states exported by the `generate` events of a trace. -/
def generateFonts (evs : List Event) : List Font :=
  evs.filterMap fun e =>
    match e with
    | Event.generate _ f => some f
    | _ => none

/-- Argument lists of the `runOtf2otc` (TTC merge) events of a trace. -/
def ttcCalls (evs : List Event) : List (List String) :=
  evs.filterMap fun e =>
    match e with
    | Event.runOtf2otc args => some args
    | _ => none

/-- Number of font-load events in a trace. -/
def opensCount (evs : List Event) : Nat :=
  evs.countP fun e =>
    match e with
    | Event.openFont _ => true
    | _ => false

/-- Number of gasp-clearing events in a trace. -/
def countRemoveGasp (evs : List Event) : Nat :=
  evs.countP fun e =>
    match e with
    | Event.removeGasp => true
    | _ => false

/-- Events produced by the region loop body: metadata mutation and
export.  Neither loads nor releases a font. -/
def isRegionEv (e : Event) : Bool :=
  match e with
  | Event.setName _ _ => true
  | Event.generate _ _ => true
  | _ => false

/-- Live-font accounting: an `openFont` raises the number of live font
objects, a `delFont` lowers it; the second component tracks the maximum
reached. -/
def stepLive (s : Nat × Nat) (e : Event) : Nat × Nat :=
  match e with
  | Event.openFont _ => (s.1 + 1, Nat.max s.2 (s.1 + 1))
  | Event.delFont => (s.1 - 1, s.2)
  | _ => s

/-- Final live count and maximum live count of a trace. -/
def liveStats (evs : List Event) : Nat × Nat := evs.foldl stepLive (0, 0)

/-- First value stored under a given sfnt key, if any. -/
def lookupSfnt : List (String × String × String) → String → Option String
  | [], _ => none
  | (_, k, v) :: rest, key => if k = key then some v else lookupSfnt rest key

/-- A concrete font used to instantiate the loading oracle in witnesses. -/
def sampleFont : Font :=
  { fontname := "SourceHanSans", fullname := "Source Han Sans",
    familyname := "Source Han Sans", version := "1.0", copyright := "none",
    sfnt_names := [("English (US)", "Family", "Source Han Sans")],
    gasp := [(65535, ["antialias", "gridfit"])] }

/-- Loading oracle returning `sampleFont` for every path. -/
def sampleInit : String → Font := fun _ => sampleFont

/-- Filesystem oracle under which every input file exists. -/
def allFiles : String → Bool := fun _ => true

example : lowerStr "JP" = "jp" := by decide

example : output_font_path "Regular" "JP" = "./output/ttf/NotoSansCJKjp-Regular.ttf" := by decide

example : ttc_path "Bold" = "./output/ttc/NotoSansCJK-Bold.ttc" := by decide

lemma set_font_name_gasp (font : Font) (region style : String) :
    (set_font_name font region style).gasp = font.gasp := rfl

lemma font_path_eq (style : String) :
    font_path style = "./input/" ++ style ++ ".ttf" := rfl

lemma ttc_path_eq (style : String) :
    ttc_path style = "./output/ttc/NotoSansCJK-" ++ style ++ ".ttc" := rfl

lemma output_font_path_eq (style region : String) :
    output_font_path style region =
      "./output/ttf/NotoSansCJK" ++ lowerStr region ++ "-" ++ style ++ ".ttf" := rfl

lemma make_ttc_args_eq (ttf_paths : List String) (out : String) :
    make_ttc_args ttf_paths out = "-o" :: out :: ttf_paths := rfl

lemma regionLoop_evs (style : String) :
    ∀ (regions : List String) (font : Font) (paths : List String) (evs : List Event),
      (regionLoop style font paths evs regions).2.2 = evs ++ regionTrace style font regions := by
  intro regions
  induction regions with
  | nil => intro font paths evs; simp [regionLoop, regionTrace]
  | cons region rest ih =>
    intro font paths evs
    simp [regionLoop, regionTrace, ih]

lemma regionLoop_paths (style : String) :
    ∀ (regions : List String) (font : Font) (paths : List String) (evs : List Event),
      (regionLoop style font paths evs regions).2.1 =
        paths ++ regions.map (fun r => output_font_path style r) := by
  intro regions
  induction regions with
  | nil => intro font paths evs; simp [regionLoop]
  | cons region rest ih =>
    intro font paths evs
    simp [regionLoop, ih]

lemma regionTrace_region (style : String) :
    ∀ (regions : List String) (font : Font), ∀ e ∈ regionTrace style font regions,
      isRegionEv e = true := by
  intro regions
  induction regions with
  | nil => intro font e he; simp [regionTrace] at he
  | cons region rest ih =>
    intro font e he
    simp only [regionTrace, List.mem_cons] at he
    rcases he with h | h | h
    · subst h; rfl
    · subst h; rfl
    · exact ih _ e h

lemma generatePaths_regionTrace (style : String) :
    ∀ (regions : List String) (font : Font),
      generatePaths (regionTrace style font regions) =
        regions.map (fun r => output_font_path style r) := by
  intro regions
  induction regions with
  | nil => intro font; simp [regionTrace, generatePaths]
  | cons region rest ih =>
    intro font
    simp [regionTrace, generatePaths] at ih ⊢
    exact ih _

lemma generateFonts_regionTrace_gasp (style : String) :
    ∀ (regions : List String) (font : Font), ∀ f ∈ generateFonts (regionTrace style font regions),
      f.gasp = font.gasp := by
  intro regions
  induction regions with
  | nil => intro font f hf; simp [regionTrace, generateFonts] at hf
  | cons region rest ih =>
    intro font f hf
    simp only [regionTrace, generateFonts, List.filterMap_cons] at hf
    simp only [List.mem_cons] at hf
    rcases hf with h | h
    · subst h; exact set_font_name_gasp font region style
    · have := ih (set_font_name font region style) f h
      rwa [set_font_name_gasp] at this

lemma ttcCalls_of_region {l : List Event} (h : ∀ e ∈ l, isRegionEv e = true) :
    ttcCalls l = [] := by
  induction l with
  | nil => rfl
  | cons e rest ih =>
    have he := h e (by simp)
    have hr : ∀ e ∈ rest, isRegionEv e = true := fun e he => h e (by simp [he])
    cases e <;> simp [isRegionEv] at he <;> simp [ttcCalls] at ih ⊢ <;> exact ih hr

lemma opensCount_of_region {l : List Event} (h : ∀ e ∈ l, isRegionEv e = true) :
    opensCount l = 0 := by
  induction l with
  | nil => rfl
  | cons e rest ih =>
    have he := h e (by simp)
    have hr : ∀ e ∈ rest, isRegionEv e = true := fun e he => h e (by simp [he])
    cases e <;> simp [isRegionEv] at he <;> simp [opensCount] at ih ⊢ <;> exact ih hr

lemma countRemoveGasp_of_region {l : List Event} (h : ∀ e ∈ l, isRegionEv e = true) :
    countRemoveGasp l = 0 := by
  induction l with
  | nil => rfl
  | cons e rest ih =>
    have he := h e (by simp)
    have hr : ∀ e ∈ rest, isRegionEv e = true := fun e he => h e (by simp [he])
    cases e <;> simp [isRegionEv] at he <;> simp [countRemoveGasp] at ih ⊢ <;> exact ih hr

lemma foldl_stepLive_of_region {l : List Event} (h : ∀ e ∈ l, isRegionEv e = true)
    (s : Nat × Nat) : l.foldl stepLive s = s := by
  induction l generalizing s with
  | nil => rfl
  | cons e rest ih =>
    have he := h e (by simp)
    have hr : ∀ e ∈ rest, isRegionEv e = true := fun e he => h e (by simp [he])
    have hstep : stepLive s e = s := by
      cases e <;> simp [isRegionEv] at he <;> rfl
    simp [List.foldl_cons, hstep]
    exact ih hr s

lemma processStyle_missing {initFont : String → Font} {ex : String → Bool} {style : String}
    (h : ex (font_path style) = false) :
    processStyle initFont ex style =
      [Event.logInfo (loadMsg (font_path style)),
       Event.logError (skipMsg (font_path style) style)] := by
  simp [processStyle, h]

lemma processStyle_exists {initFont : String → Font} {ex : String → Bool} {style : String}
    (h : ex (font_path style) = true) :
    processStyle initFont ex style =
      [Event.logInfo (loadMsg (font_path style)), Event.openFont (font_path style),
       Event.removeGasp]
      ++ regionTrace style (remove_gasp (open_font initFont (font_path style))) _REGIONS
      ++ [Event.delFont, Event.gcCollect, Event.logInfo (ttcMsg style),
          Event.runOtf2otc (make_ttc_args
            (_REGIONS.map (fun r => output_font_path style r)) (ttc_path style))] := by
  simp [processStyle, h, regionLoop_evs, regionLoop_paths]
lemma ttcCalls_append (a b : List Event) : ttcCalls (a ++ b) = ttcCalls a ++ ttcCalls b := by
  simp [ttcCalls]

lemma generatePaths_append (a b : List Event) :
    generatePaths (a ++ b) = generatePaths a ++ generatePaths b := by
  simp [generatePaths]

lemma generateFonts_append (a b : List Event) :
    generateFonts (a ++ b) = generateFonts a ++ generateFonts b := by
  simp [generateFonts]

lemma opensCount_append (a b : List Event) :
    opensCount (a ++ b) = opensCount a + opensCount b := by
  simp [opensCount, List.countP_append]

lemma countRemoveGasp_append (a b : List Event) :
    countRemoveGasp (a ++ b) = countRemoveGasp a + countRemoveGasp b := by
  simp [countRemoveGasp, List.countP_append]

lemma ttcCalls_processStyle (initFont : String → Font) (ex : String → Bool) (style : String) :
    ttcCalls (processStyle initFont ex style) =
      if ex (font_path style) = true then
        [make_ttc_args (_REGIONS.map (fun r => output_font_path style r)) (ttc_path style)]
      else [] := by
  cases h : ex (font_path style) with
  | false =>
    rw [processStyle_missing h]
    simp [ttcCalls]
  | true =>
    rw [processStyle_exists h, ttcCalls_append, ttcCalls_append,
      ttcCalls_of_region (regionTrace_region style _REGIONS _)]
    simp [ttcCalls]

lemma generatePaths_processStyle (initFont : String → Font) (ex : String → Bool)
    (style : String) :
    generatePaths (processStyle initFont ex style) =
      if ex (font_path style) = true then _REGIONS.map (fun r => output_font_path style r)
      else [] := by
  cases h : ex (font_path style) with
  | false =>
    rw [processStyle_missing h]
    simp [generatePaths]
  | true =>
    rw [processStyle_exists h, generatePaths_append, generatePaths_append,
      generatePaths_regionTrace style _REGIONS _]
    simp [generatePaths]

lemma opensCount_processStyle (initFont : String → Font) (ex : String → Bool)
    (style : String) :
    opensCount (processStyle initFont ex style) =
      if ex (font_path style) = true then 1 else 0 := by
  cases h : ex (font_path style) with
  | false =>
    rw [processStyle_missing h]
    simp [opensCount]
  | true =>
    rw [processStyle_exists h, opensCount_append, opensCount_append,
      opensCount_of_region (regionTrace_region style _REGIONS _)]
    simp [opensCount]

lemma countRemoveGasp_processStyle (initFont : String → Font) (ex : String → Bool)
    (style : String) :
    countRemoveGasp (processStyle initFont ex style) =
      if ex (font_path style) = true then 1 else 0 := by
  cases h : ex (font_path style) with
  | false =>
    rw [processStyle_missing h]
    simp [countRemoveGasp]
  | true =>
    rw [processStyle_exists h, countRemoveGasp_append, countRemoveGasp_append,
      countRemoveGasp_of_region (regionTrace_region style _REGIONS _)]
    simp [countRemoveGasp]

lemma generateFonts_processStyle_gasp (initFont : String → Font) (ex : String → Bool)
    (style : String) :
    ∀ f ∈ generateFonts (processStyle initFont ex style), f.gasp = [] := by
  intro f hf
  cases h : ex (font_path style) with
  | false =>
    rw [processStyle_missing h] at hf
    simp [generateFonts] at hf
  | true =>
    rw [processStyle_exists h, generateFonts_append, generateFonts_append] at hf
    rw [List.mem_append, List.mem_append] at hf
    rcases hf with (hf | hf) | hf
    · simp [generateFonts] at hf
    · have := generateFonts_regionTrace_gasp style _REGIONS
        (remove_gasp (open_font initFont (font_path style))) f hf
      simpa [remove_gasp] using this
    · simp [generateFonts] at hf

lemma foldl_stepLive_processStyle (initFont : String → Font) (ex : String → Bool)
    (style : String) (m : Nat) :
    (processStyle initFont ex style).foldl stepLive (0, m) =
      (0, if ex (font_path style) = true then Nat.max m 1 else m) := by
  cases h : ex (font_path style) with
  | false =>
    rw [processStyle_missing h]
    simp [stepLive]
  | true =>
    rw [processStyle_exists h]
    rw [List.foldl_append, List.foldl_append]
    rw [show List.foldl stepLive ((0 : Nat), m)
        [Event.logInfo (loadMsg (font_path style)), Event.openFont (font_path style),
         Event.removeGasp] = (1, Nat.max m 1) from by simp [stepLive]]
    rw [foldl_stepLive_of_region (regionTrace_region style _REGIONS _) (1, Nat.max m 1)]
    simp [stepLive]

lemma ttcCalls_runStyles (initFont : String → Font) (ex : String → Bool) :
    ∀ styles : List String,
      ttcCalls (runStyles initFont ex styles) =
        (styles.filter (fun s => ex (font_path s))).map
          (fun s => make_ttc_args (_REGIONS.map (fun r => output_font_path s r)) (ttc_path s)) := by
  intro styles
  induction styles with
  | nil => rfl
  | cons s rest ih =>
    rw [runStyles, ttcCalls_append, ih, ttcCalls_processStyle]
    cases h : ex (font_path s) with
    | false => simp [List.filter_cons, h]
    | true => simp [List.filter_cons, h]

lemma generateFonts_runStyles_gasp (initFont : String → Font) (ex : String → Bool) :
    ∀ styles : List String, ∀ f ∈ generateFonts (runStyles initFont ex styles),
      f.gasp = [] := by
  intro styles
  induction styles with
  | nil => intro f hf; simp [runStyles, generateFonts] at hf
  | cons s rest ih =>
    intro f hf
    rw [runStyles, generateFonts_append, List.mem_append] at hf
    rcases hf with hf | hf
    · exact generateFonts_processStyle_gasp initFont ex s f hf
    · exact ih f hf

lemma foldl_stepLive_runStyles (initFont : String → Font) (ex : String → Bool) :
    ∀ (styles : List String) (m : Nat),
      ((runStyles initFont ex styles).foldl stepLive (0, m)).1 = 0 ∧
      ((runStyles initFont ex styles).foldl stepLive (0, m)).2 ≤ Nat.max m 1 := by
  intro styles
  induction styles with
  | nil => intro m; constructor <;> simp [runStyles, Nat.le_max_left]
  | cons s rest ih =>
    intro m
    rw [runStyles, List.foldl_append, foldl_stepLive_processStyle]
    cases h : ex (font_path s) with
    | false => simpa using ih m
    | true =>
      simp only [if_pos rfl]
      have := ih (Nat.max m 1)
      constructor
      · exact this.1
      · calc ((runStyles initFont ex rest).foldl stepLive (0, Nat.max m 1)).2
            ≤ Nat.max (Nat.max m 1) 1 := this.2
          _ = Nat.max m 1 := Nat.max_eq_left (Nat.le_max_right m 1)

lemma regionLoopE_ok (style : String) :
    ∀ (regions : List String) (font : Font) (paths : List String) (evs : List Event),
      regionLoopE (fun _ => true) style font paths evs regions =
        Except.ok (regionLoop style font paths evs regions) := by
  intro regions
  induction regions with
  | nil => intro font paths evs; rfl
  | cons region rest ih =>
    intro font paths evs
    simp [regionLoopE, regionLoop, ih]

lemma processStyleE_ok (initFont : String → Font) (ex : String → Bool) (style : String) :
    processStyleE initFont ex (fun _ => true) style =
      Except.ok (processStyle initFont ex style) := by
  cases h : ex (font_path style) with
  | false => simp [processStyleE, processStyle, h]
  | true => simp [processStyleE, processStyle, h, regionLoopE_ok]

lemma runStylesE_ok (initFont : String → Font) (ex : String → Bool) :
    ∀ styles : List String,
      runStylesE initFont ex (fun _ => true) styles =
        Except.ok (runStyles initFont ex styles) := by
  intro styles
  induction styles with
  | nil => rfl
  | cons s rest ih =>
    rw [runStylesE, processStyleE_ok, ih]
    rfl

lemma processStyleE_missing {initFont : String → Font} {ex : String → Bool}
    {ok : LibCall → Bool} {style : String} (h : ex (font_path style) = false) :
    processStyleE initFont ex ok style =
      Except.ok [Event.logInfo (loadMsg (font_path style)),
                 Event.logError (skipMsg (font_path style) style)] := by
  simp [processStyleE, h]

lemma runStylesE_error (initFont : String → Font) (ex : String → Bool)
    (ok : LibCall → Bool) (style : String) (post : List String) (c : LibCall) :
    ∀ pre : List String,
      (∀ s ∈ pre, isOkE (processStyleE initFont ex ok s) = true) →
      processStyleE initFont ex ok style = Except.error c →
      runStylesE initFont ex ok (pre ++ style :: post) = Except.error c := by
  intro pre
  induction pre with
  | nil =>
    intro _ herr
    rw [List.nil_append, runStylesE, herr]
  | cons p rest ih =>
    intro hpre herr
    have hp := hpre p (by simp)
    rw [List.cons_append, runStylesE]
    cases hq : processStyleE initFont ex ok p with
    | error d => rw [hq] at hp; simp [isOkE] at hp
    | ok evs =>
      rw [ih (fun s hs => hpre s (by simp [hs])) herr]

/-- C1 (corrected): the claim states the per-region TTF is written to
`./output/ttf/NotoSansCJK<region>-<Style>.ttf` with the region string
as listed (JP, KR, SC, TC, HK), but the code lowercases the region
(line 139: `region.lower()`).  Amended: for every style whose input
exists, the per-region TTF export paths are exactly
`./output/ttf/NotoSansCJK<region lowercased>-<Style>.ttf`, in region
order. -/
theorem C1_ttf_output_path (initFont : String → Font) (ex : String → Bool) (style : String)
    (h : ex (font_path style) = true) :
    generatePaths (processStyle initFont ex style) =
      _REGIONS.map (fun region =>
        "./output/ttf/NotoSansCJK" ++ lowerStr region ++ "-" ++ style ++ ".ttf") := by
  rw [generatePaths_processStyle, if_pos h]
  rfl

/-- Counterexample to C1 as stated: running on style Regular and region
JP, the trace exports to the lowercased path and never to the path with
the region as listed. -/
theorem C1_ttf_output_path_cex :
    ("./output/ttf/NotoSansCJKjp-Regular.ttf" ∈
        generatePaths (rename_fonts sampleInit allFiles)) ∧
    ¬ ("./output/ttf/NotoSansCJKJP-Regular.ttf" ∈
        generatePaths (rename_fonts sampleInit allFiles)) := by
  constructor <;> decide

/-- Witness for C1 at style Regular. -/
theorem C1_ttf_output_path_witness :
    allFiles (font_path "Regular") = true ∧
    generatePaths (processStyle sampleInit allFiles "Regular") =
      _REGIONS.map (fun region =>
        "./output/ttf/NotoSansCJK" ++ lowerStr region ++ "-" ++ "Regular" ++ ".ttf") :=
  ⟨rfl, C1_ttf_output_path sampleInit allFiles "Regular" rfl⟩

/-- C2 (confirmed): when the input file of a style does not exist, the
style's whole processing is the load log followed by the error log: no
TTF is generated, no TTC merge is invoked, the loop continues with the
remaining styles, and (in the fallible semantics, for every behaviour
`ok` of the external libraries) the missing file is handled, never an
error. -/
theorem C2_missing_input_skipped (initFont : String → Font) (ex : String → Bool)
    (ok : LibCall → Bool) (style : String) (rest : List String)
    (h : ex (font_path style) = false) :
    processStyle initFont ex style =
      [Event.logInfo (loadMsg (font_path style)),
       Event.logError (skipMsg (font_path style) style)]
    ∧ generatePaths (processStyle initFont ex style) = []
    ∧ ttcCalls (processStyle initFont ex style) = []
    ∧ runStyles initFont ex (style :: rest) =
        [Event.logInfo (loadMsg (font_path style)),
         Event.logError (skipMsg (font_path style) style)] ++ runStyles initFont ex rest
    ∧ processStyleE initFont ex ok style =
        Except.ok [Event.logInfo (loadMsg (font_path style)),
                   Event.logError (skipMsg (font_path style) style)] := by
  refine ⟨processStyle_missing h, ?_, ?_, ?_, processStyleE_missing h⟩
  · rw [generatePaths_processStyle, if_neg (by simp [h])]
  · rw [ttcCalls_processStyle, if_neg (by simp [h])]
  · rw [runStyles, processStyle_missing h]

/-- Witness for C2: with no input files present, style Thin is skipped
with the two log lines. -/
theorem C2_missing_input_skipped_witness :
    ((fun _ : String => false) (font_path "Thin") = false) ∧
    processStyle sampleInit (fun _ => false) "Thin" =
      [Event.logInfo (loadMsg (font_path "Thin")),
       Event.logError (skipMsg (font_path "Thin") "Thin")] :=
  ⟨rfl, (C2_missing_input_skipped sampleInit (fun _ => false) (fun _ => true)
      "Thin" [] rfl).1⟩

/-- C3 (confirmed): over a whole run, the external merging tool is
invoked exactly once per style whose input exists, with arguments `-o`,
`./output/ttc/NotoSansCJK-<Style>.ttc`, then exactly the per-region TTF
output paths of that style in region order JP, KR, SC, TC, HK. -/
theorem C3_ttc_merge (initFont : String → Font) (ex : String → Bool) :
    ttcCalls (rename_fonts initFont ex) =
      (_STYLES.filter (fun style => ex (font_path style))).map
        (fun style =>
          "-o" :: ("./output/ttc/NotoSansCJK-" ++ style ++ ".ttc") ::
            _REGIONS.map (fun region =>
              "./output/ttf/NotoSansCJK" ++ lowerStr region ++ "-" ++ style ++ ".ttf")) := by
  rw [rename_fonts, ttcCalls_runStyles]
  rfl

/-- C4 (confirmed): in the fallible semantics, any failing external
library call (open, gasp clearing, metadata mutation, export, or the
merging tool) during some style propagates out of the whole run as that
very error — no handler catches it and no later style is processed —
and when no library call fails the run reduces to the plain trace
semantics. -/
theorem C4_library_errors_propagate :
    (∀ (initFont : String → Font) (ex : String → Bool) (ok : LibCall → Bool)
        (pre : List String) (style : String) (post : List String) (c : LibCall),
      (∀ s ∈ pre, isOkE (processStyleE initFont ex ok s) = true) →
      processStyleE initFont ex ok style = Except.error c →
      runStylesE initFont ex ok (pre ++ style :: post) = Except.error c) ∧
    (∀ (initFont : String → Font) (ex : String → Bool),
      rename_fontsE initFont ex (fun _ => true) = Except.ok (rename_fonts initFont ex)) :=
  ⟨fun initFont ex ok pre style post c hpre herr =>
      runStylesE_error initFont ex ok style post c pre hpre herr,
   fun initFont ex => runStylesE_ok initFont ex _STYLES⟩

/-- Witness for C4: if opening `./input/Thin.ttf` fails, the run stops
right there with that error, although style Regular before it
succeeded and four styles follow. -/
theorem C4_library_errors_propagate_witness :
    (∀ s ∈ ["Regular"], isOkE (processStyleE sampleInit allFiles
        (fun c => !(decide (c = LibCall.openFont (font_path "Thin")))) s) = true) ∧
    runStylesE sampleInit allFiles
        (fun c => !(decide (c = LibCall.openFont (font_path "Thin"))))
        (["Regular"] ++ "Thin" :: ["Light", "Medium", "Bold", "Black"]) =
      Except.error (LibCall.openFont (font_path "Thin")) :=
  ⟨by decide,
   C4_library_errors_propagate.1 sampleInit allFiles
     (fun c => !(decide (c = LibCall.openFont (font_path "Thin"))))
     ["Regular"] "Thin" ["Light", "Medium", "Bold", "Black"]
     (LibCall.openFont (font_path "Thin")) (by decide) rfl⟩

/-- C5 (corrected): the claim states a font load occurs for each
(style, region) inner iteration, but the code loads once per style
(line 131), outside the region loop.  Amended: for each style whose
input exists the trace is: load once, clear gasp, then per region a
metadata mutation and an export, then release and merge; exactly one
load event occurs for the style. -/
theorem C5_loop_structure (initFont : String → Font) (ex : String → Bool) (style : String)
    (h : ex (font_path style) = true) :
    processStyle initFont ex style =
      [Event.logInfo (loadMsg (font_path style)), Event.openFont (font_path style),
       Event.removeGasp]
      ++ regionTrace style (remove_gasp (open_font initFont (font_path style))) _REGIONS
      ++ [Event.delFont, Event.gcCollect, Event.logInfo (ttcMsg style),
          Event.runOtf2otc (make_ttc_args
            (_REGIONS.map (fun r => output_font_path style r)) (ttc_path style))]
    ∧ opensCount (processStyle initFont ex style) = 1 :=
  ⟨processStyle_exists h, by rw [opensCount_processStyle, if_pos h]⟩

/-- Counterexample to C5 as stated: with all six input files present,
the whole run performs 6 font loads, not one per (style, region) pair,
which would be 30. -/
theorem C5_loop_structure_cex :
    opensCount (rename_fonts sampleInit allFiles) = 6 ∧
    ¬ opensCount (rename_fonts sampleInit allFiles) = _STYLES.length * _REGIONS.length := by
  constructor <;> decide

/-- Witness for C5 at style Regular. -/
theorem C5_loop_structure_witness :
    allFiles (font_path "Regular") = true ∧
    opensCount (processStyle sampleInit allFiles "Regular") = 1 :=
  ⟨rfl, (C5_loop_structure sampleInit allFiles "Regular" rfl).2⟩

/-- C6 (confirmed): at every point of a run at most one font object is
live and every font is released (the running live count never exceeds
one and ends at zero), and for each processed style the release
(`delFont`) comes after the inner block — which holds every export and
only mutation/export events — and before the merge call. -/
theorem C6_single_live_font (initFont : String → Font) (ex : String → Bool) :
    (liveStats (rename_fonts initFont ex)).1 = 0 ∧
    (liveStats (rename_fonts initFont ex)).2 ≤ 1 ∧
    ∀ style, ex (font_path style) = true →
      ∃ inner : List Event,
        processStyle initFont ex style =
          [Event.logInfo (loadMsg (font_path style)), Event.openFont (font_path style),
           Event.removeGasp]
          ++ inner
          ++ [Event.delFont, Event.gcCollect, Event.logInfo (ttcMsg style),
              Event.runOtf2otc (make_ttc_args
                (_REGIONS.map (fun r => output_font_path style r)) (ttc_path style))]
        ∧ ∀ e ∈ inner, isRegionEv e = true := by
  have hl := foldl_stepLive_runStyles initFont ex _STYLES 0
  refine ⟨hl.1, hl.2, ?_⟩
  intro style h
  exact ⟨regionTrace style (remove_gasp (open_font initFont (font_path style))) _REGIONS,
    processStyle_exists h, regionTrace_region style _REGIONS _⟩

/-- Witness for C6 at style Regular. -/
theorem C6_single_live_font_witness :
    (liveStats (rename_fonts sampleInit allFiles)).1 = 0 ∧
    (∃ inner : List Event,
      processStyle sampleInit allFiles "Regular" =
        [Event.logInfo (loadMsg (font_path "Regular")), Event.openFont (font_path "Regular"),
         Event.removeGasp]
        ++ inner
        ++ [Event.delFont, Event.gcCollect, Event.logInfo (ttcMsg "Regular"),
            Event.runOtf2otc (make_ttc_args
              (_REGIONS.map (fun r => output_font_path "Regular" r)) (ttc_path "Regular"))]
      ∧ ∀ e ∈ inner, isRegionEv e = true) :=
  ⟨(C6_single_live_font sampleInit allFiles).1,
   (C6_single_live_font sampleInit allFiles).2.2 "Regular" rfl⟩

/-- C7 (confirmed): after `set_font_name`, `fontname` is
`NotoSansCJK<region lowercased>-<style>`; `fullname` is
`Noto Sans CJK <region>` for Regular and `Noto Sans CJK <region> <style>`
otherwise; `familyname` is `Noto Sans CJK <region>` for Regular or Bold
and `Noto Sans CJK <region> <style>` otherwise. -/
theorem C7_font_names (font : Font) (region style : String) :
    (set_font_name font region style).fontname =
      "NotoSansCJK" ++ lowerStr region ++ "-" ++ style
    ∧ (set_font_name font region style).fullname =
        (if style = "Regular" then "Noto Sans CJK " ++ region
         else "Noto Sans CJK " ++ region ++ " " ++ style)
    ∧ (set_font_name font region style).familyname =
        (if style = "Regular" ∨ style = "Bold" then "Noto Sans CJK " ++ region
         else "Noto Sans CJK " ++ region ++ " " ++ style) :=
  ⟨rfl, rfl, rfl⟩

/-- C8 (confirmed): after `set_font_name`, the sfnt names hold a
SubFamily entry equal to the style for Regular and Bold and to
`Regular` otherwise, and hold Preferred Family
(`Noto Sans CJK <region>`) and Preferred Styles (the style) entries
exactly when the style is neither Regular nor Bold. -/
theorem C8_sfnt_entries (font : Font) (region style : String) :
    lookupSfnt (set_font_name font region style).sfnt_names "SubFamily" =
      some (if style = "Regular" ∨ style = "Bold" then style else "Regular")
    ∧ lookupSfnt (set_font_name font region style).sfnt_names "Preferred Family" =
        (if style = "Regular" ∨ style = "Bold" then none
         else some ("Noto Sans CJK " ++ region))
    ∧ lookupSfnt (set_font_name font region style).sfnt_names "Preferred Styles" =
        (if style = "Regular" ∨ style = "Bold" then none else some style) := by
  by_cases h : style = "Regular" ∨ style = "Bold" <;>
    simp [set_font_name, lookupSfnt, h]

/-- C9 (confirmed): every font state exported by a `generate` event of
a run has an empty gasp table; the gasp-clearing event occurs exactly
once per style with an existing input (never for a skipped style); and
for a processed style it is the third event of the style's trace, with
no further gasp clearing afterwards — in particular it precedes every
export of that style. -/
theorem C9_gasp_cleared (initFont : String → Font) (ex : String → Bool) :
    (∀ f ∈ generateFonts (rename_fonts initFont ex), f.gasp = [])
    ∧ (∀ style, countRemoveGasp (processStyle initFont ex style) =
        if ex (font_path style) = true then 1 else 0)
    ∧ ∀ style, ex (font_path style) = true →
        (processStyle initFont ex style).take 3 =
          [Event.logInfo (loadMsg (font_path style)), Event.openFont (font_path style),
           Event.removeGasp]
        ∧ ∀ e ∈ (processStyle initFont ex style).drop 3, e ≠ Event.removeGasp := by
  refine ⟨generateFonts_runStyles_gasp initFont ex _STYLES,
    fun style => countRemoveGasp_processStyle initFont ex style, ?_⟩
  intro style h
  constructor
  · rw [processStyle_exists h]
    rfl
  · rw [processStyle_exists h]
    have hd : ∀ (mid tail : List Event) (a b c : Event),
        (([a, b, c] ++ mid) ++ tail).drop 3 = mid ++ tail := by
      intro mid tail a b c
      simp
    rw [hd]
    intro e he
    rcases List.mem_append.mp he with hf | hf
    · have := regionTrace_region style _REGIONS
        (remove_gasp (open_font initFont (font_path style))) e hf
      cases e <;> simp [isRegionEv] at this ⊢
    · simp only [List.mem_cons, List.not_mem_nil, or_false] at hf
      rcases hf with hf | hf | hf | hf <;> subst hf <;> simp

set_option maxRecDepth 8000 in
/-- Witness for C9: the font exported for region JP of style Regular
has an empty gasp table, and the style's trace starts with load log,
font load, gasp clearing. -/
theorem C9_gasp_cleared_witness :
    (set_font_name (remove_gasp (open_font sampleInit (font_path "Regular")))
        "JP" "Regular").gasp = []
    ∧ (processStyle sampleInit allFiles "Regular").take 3 =
        [Event.logInfo (loadMsg (font_path "Regular")), Event.openFont (font_path "Regular"),
         Event.removeGasp] :=
  ⟨(C9_gasp_cleared sampleInit allFiles).1 _ (by decide),
   ((C9_gasp_cleared sampleInit allFiles).2.2 "Regular" rfl).1⟩
